import Mathlib

/-!
# Shallow embedding of the DualNumber library (DualNumber.hpp)

The C++ header defines `DualNumbers::dual<T>`, a forward-mode automatic
differentiation type holding a value component `m_a` and a derivative
component `m_b`, together with compound-assignment arithmetic, comparison
operators derived from `std::tie` lexicographic comparison, in-place
inversion/conjugation, and a `cmath`-style layer of elementary and Bessel
functions.

The embedding below translates each member/free function statement by
statement.  The component type `T` (instantiated at `float`/`double`/
`long double` in the source) is modelled by an arbitrary `Field α`,
instantiated at `ℚ` in theorems so that concrete evaluations are exact and
decidable; the transcendental `pow` overload is embedded over `ℝ` with
`Real.rpow`/`Real.log` standing for `std::pow`/`std::log`.  Division by
zero in the exact field follows Lean's `x / 0 = 0` convention; where a
claim is about the *error behaviour* at a zero divisor, an `Except`-typed
view of the same code path makes the (absent) error channel explicit.
-/

namespace DualNumbers

/-- Embedding of `DualNumbers::dual<T>` (DualNumber.hpp, lines 43-255):
an ordered pair of a value component `m_a` (accessor `a()`) and a
derivative component `m_b` (accessor `b()`). -/
structure dual (α : Type) where
  a : α
  b : α
deriving DecidableEq

variable {α : Type}

/-- `dual<T>::Zero()` (lines 52-54): returns `{T(0.0), T(0.0)}`. -/
def dual.Zero [Field α] : dual α := ⟨0, 0⟩

/-- `dual<T>::ID_Add()` (lines 60-62): returns `Zero()`. -/
def dual.ID_Add [Field α] : dual α := dual.Zero

/-- `dual<T>::ID_Mul()` (lines 68-70): the body returns
`this_type{ T(0.0), T(0.0) }` — the pair (0, 0), even though the doc
comment above it announces the multiplicative identity 1 + 0ε. -/
def dual.ID_Mul [Field α] : dual α := ⟨0, 0⟩

/-- Unary `operator-` (lines 113-115): `{ -m_a, -m_b }`. -/
def dual.neg [Field α] (d : dual α) : dual α := ⟨-d.a, -d.b⟩

/-- `operator+=(const this_type&)` (lines 136-141): componentwise sums. -/
def dual.addAssign [Field α] (l r : dual α) : dual α :=
  ⟨l.a + r.a, l.b + r.b⟩

/-- `operator-=(const this_type&)` (lines 149-154): componentwise
differences. -/
def dual.subAssign [Field α] (l r : dual α) : dual α :=
  ⟨l.a - r.a, l.b - r.b⟩

/-- `operator*=(const this_type&)` (lines 162-169).  The body updates the
fields in sequence: `m_b *= rhs.m_a; m_b += m_a * rhs.m_b; m_a *= rhs.m_a`
(the product rule, `m_a` still unmodified when `m_b` is finalised). -/
def dual.mulAssign [Field α] (l r : dual α) : dual α :=
  let b1 := l.b * r.a
  let b2 := b1 + l.a * r.b
  let a1 := l.a * r.a
  ⟨a1, b2⟩

/-- `operator/=(const this_type&)` (lines 178-186).  The body updates the
fields in sequence: `m_b *= rhs.m_a; m_b -= m_a * rhs.m_b;
m_b /= rhs.m_a * rhs.m_a; m_a /= rhs.m_a` (the quotient rule; no check of
`rhs.m_a`). -/
def dual.divAssign [Field α] (l r : dual α) : dual α :=
  let b1 := l.b * r.a
  let b2 := b1 - l.a * r.b
  let b3 := b2 / (r.a * r.a)
  let a1 := l.a / r.a
  ⟨a1, b3⟩

/-- `dual<T>::inverted()` (lines 218-223).  The body runs
`m_a = T(1.0) / m_a;` and THEN `m_b /= -(m_a * m_a);`, so the second
statement divides by the square of the ALREADY-REPLACED value component:
the result is `(1/a, b / -(1/a · 1/a)) = (1/a, -b·a²)`. -/
def dual.inverted [Field α] (d : dual α) : dual α :=
  let a1 := 1 / d.a
  let b1 := d.b / (-(a1 * a1))
  ⟨a1, b1⟩

/-- `dual<T>::inverse()` (lines 200-202): delegates to `inverted()`. -/
def dual.inverse [Field α] (d : dual α) : dual α := d.inverted

/-- `dual<T>::conjugated()` (lines 231-234): `m_b = -m_b`. -/
def dual.conjugated [Field α] (d : dual α) : dual α := ⟨d.a, -d.b⟩

/-- `dual<T>::conjugate()` (lines 208-210): delegates to `conjugated()`. -/
def dual.conjugate [Field α] (d : dual α) : dual α := d.conjugated

/-- Prefix `operator++` (lines 126-129): `++m_a`, `m_b` untouched; returns
the updated object. -/
def dual.incPre [Field α] (d : dual α) : dual α := ⟨d.a + 1, d.b⟩

/-- Prefix `operator--` (lines 131-134): `--m_a`, `m_b` untouched; returns
the updated object. -/
def dual.decPre [Field α] (d : dual α) : dual α := ⟨d.a - 1, d.b⟩

/-- Postfix `operator++(dual<T>&, int)` (lines 278-283): saves a copy,
applies the prefix increment to the argument, returns the copy.  The pair
holds (returned copy, final state of the argument). -/
def incPost [Field α] (d : dual α) : dual α × dual α :=
  let copy := d
  (copy, d.incPre)

/-- Postfix `operator--(dual<T>&, int)` (lines 285-290): saves a copy,
applies the prefix decrement to the argument, returns the copy.  The pair
holds (returned copy, final state of the argument). -/
def decPost [Field α] (d : dual α) : dual α × dual α :=
  let copy := d
  (copy, d.decPre)

/-- `operator==` (lines 117-120): `std::tie(m_a, m_b) ==
std::tie(rhs.m_a, rhs.m_b)`, i.e. elementwise equality of the pair. -/
def dual.beq [DecidableEq α] (l r : dual α) : Bool :=
  decide (l.a = r.a) && decide (l.b = r.b)

/-- `operator<` (lines 122-124): `std::tie(m_a, m_b) <
std::tie(rhs.m_a, rhs.m_b)`; `std::tuple`'s `operator<` on two elements is
`t0 < u0 || (!(u0 < t0) && t1 < u1)`. -/
def dual.blt [LinearOrder α] (l r : dual α) : Bool :=
  decide (l.a < r.a) || (!decide (r.a < l.a) && decide (l.b < r.b))

/-- Free `operator!=` (lines 258-261): `!(lhs == rhs)`. -/
def bneD [DecidableEq α] (l r : dual α) : Bool := !(l.beq r)

/-- Free `operator<=` (lines 263-266): `(lhs == rhs) || (lhs < rhs)`. -/
def bleD [LinearOrder α] (l r : dual α) : Bool := l.beq r || l.blt r

/-- Free `operator>` (lines 268-271): `rhs < lhs`. -/
def bgtD [LinearOrder α] (l r : dual α) : Bool := r.blt l

/-- Free `operator>=` (lines 273-276): `(lhs == rhs) || (lhs > rhs)`. -/
def bgeD [LinearOrder α] (l r : dual α) : Bool := l.beq r || bgtD l r

/-- Free `inverted(dual<T>&)` (lines 372-376): takes the argument by
non-const reference, calls the mutating member `inverse()` on it, then
returns (a copy of) the mutated argument.  The pair holds
(final state of the argument, returned value). -/
def inverted [Field α] (d : dual α) : dual α × dual α :=
  let d1 := d.inverse
  (d1, d1)

/-- Free `conjugated(dual<T>&)` (lines 384-388): takes the argument by
non-const reference, calls the mutating member `conjugate()` on it, then
returns (a copy of) the mutated argument.  The pair holds
(final state of the argument, returned value). -/
def conjugated [Field α] (d : dual α) : dual α × dual α :=
  let d1 := d.conjugate
  (d1, d1)

/-- The error condition named by the specification for division by a dual
number with zero value component (spec §7: "Division-by-zero ... signaled
as a domain failure at the Core layer"). -/
inductive DomainError where
  | DivideByZero
deriving DecidableEq

/-- Error-channel view of `operator/=` (lines 178-186): the C++ body
performs the four component operations unconditionally — it contains no
test of `rhs.m_a` and no `throw` — so every input, including a divisor
with `m_a == 0`, follows the single normal-return path.  The `Except`
codomain makes that explicit: the result is `Except.ok` of exactly what
`divAssign` computes, on every input. -/
def divAssignE [Field α] (l r : dual α) : Except DomainError (dual α) :=
  Except.ok (l.divAssign r)

/-- Error-channel view of `dual<T>::inverted()` (lines 218-223): the body
performs the two assignments unconditionally — no test of `m_a`, no
`throw` — so every input follows the single normal-return path. -/
def invertedE [Field α] (d : dual α) : Except DomainError (dual α) :=
  Except.ok d.inverted

/-- `cmath`: `pow(const dual<T>&, const dual<T>&)` (lines 412-420),
embedded over `ℝ` with `Real.rpow` for `std::pow` and `Real.log` for
`std::log`.  The body reads:
`auto real = pow(f.a(), y.b());` — note the exponent is `y.b()` —
`auto dpow_y = y.a() * pow(f.a(), y.a() - T(1.0));`
`auto dpow_f = real * log(f.a());`
`return dual<T>{real, dpow_y * f.b() + dpow_f * y.b()};`. -/
noncomputable def pow (f y : dual ℝ) : dual ℝ :=
  let real := f.a ^ y.b
  let dpow_y := y.a * f.a ^ (y.a - 1)
  let dpow_f := real * Real.log f.a
  ⟨real, dpow_y * f.b + dpow_f * y.b⟩

/-- `calculateBesselFunctions` (lines 610-622), generic over the wrapped
scalar Bessel provider `bessel` exactly as the C++ template is generic
over its `BesselFunctor`.  The body:
if `nu == 0`, return `{bessel(0, x.a()), -x.b() * bessel(0, x.a())}` —
note the derivative term calls `bessel` at order 0 — else return
`{bessel(nu, x.a()), 0.5 * x.b() * (bessel(nu-1, x.a()) - bessel(nu+1, x.a()))}`
(`T2(0.5)` is written `1/2` in the exact field). -/
def calculateBesselFunctions [Field α] [DecidableEq α]
    (nu : α) (x : dual α) (bessel : α → α → α) : dual α :=
  if nu = 0 then
    ⟨bessel 0 x.a, -x.b * bessel 0 x.a⟩
  else
    ⟨bessel nu x.a, (1 / 2 : α) * x.b * (bessel (nu - 1) x.a - bessel (nu + 1) x.a)⟩

/-- `cyl_bessel_j(double, const dual<T>&)` (lines 667-672): wraps the
external scalar provider `std::cyl_bessel_j` — here an explicit parameter
`J`, since the provider is outside the library (spec §6) — and delegates
to `calculateBesselFunctions`. -/
def cyl_bessel_j [Field α] [DecidableEq α]
    (J : α → α → α) (nu : α) (x : dual α) : dual α :=
  calculateBesselFunctions nu x J

/-! ## Helper lemmas -/

/-- The embedded `operator==` decides componentwise equality. -/
theorem beq_iff [DecidableEq α] (p q : dual α) :
    p.beq q = true ↔ p.a = q.a ∧ p.b = q.b := by
  simp [dual.beq]

/-- The embedded `operator<` decides the strict lexicographic order. -/
theorem blt_iff [LinearOrder α] (p q : dual α) :
    p.blt q = true ↔ p.a < q.a ∨ (p.a = q.a ∧ p.b < q.b) := by
  simp only [dual.blt, Bool.or_eq_true, Bool.and_eq_true, Bool.not_eq_true',
    decide_eq_true_eq, decide_eq_false_iff_not]
  constructor
  · rintro (h | ⟨h1, h2⟩)
    · exact Or.inl h
    · rcases lt_or_eq_of_le (not_lt.mp h1) with hlt | heq
      · exact Or.inl hlt
      · exact Or.inr ⟨heq, h2⟩
  · rintro (h | ⟨h1, h2⟩)
    · exact Or.inl h
    · exact Or.inr ⟨by rw [h1]; exact lt_irrefl _, h2⟩

/-! ## Claim theorems -/

/-- Claim C1: the specification (and the header's own doc comment
`@return 逆数(1/a - b/a^2ε)`) states that inversion returns
`(1/a, -b/a²)`, but `inverted()` overwrites `m_a` with `1/a` before
dividing `m_b` by `-(m_a*m_a)`, so it actually returns `(1/a, -b·a²)`:
at `(2, 1)` the code yields `(1/2, -4)` through all three entry points
(`inverted`, `inverse`, and the free function `inverted`), not the
documented `(1/2, -1/4)`. -/
theorem inverted_at_two_one :
    dual.inverted (⟨2, 1⟩ : dual ℚ) = ⟨1 / 2, -4⟩ ∧
    dual.inverse (⟨2, 1⟩ : dual ℚ) = ⟨1 / 2, -4⟩ ∧
    (inverted (⟨2, 1⟩ : dual ℚ)).2 = ⟨1 / 2, -4⟩ ∧
    dual.inverted (⟨2, 1⟩ : dual ℚ) ≠ ⟨1 / 2, -(1 / 4)⟩ := by
  refine ⟨?_, ?_, ?_, ?_⟩ <;>
    norm_num [dual.inverted, dual.inverse, inverted, dual.mk.injEq]

/-- Claim C4: division implements the quotient rule exactly,
`(a,b)/(c,d) = (a/c, (b·c − a·d)/c²)` for `c ≠ 0`, and in particular
`(1,0)/(a,1)` has derivative component `-1/a²` for `a ≠ 0`. -/
theorem divAssign_quotient_rule :
    ∀ a b c d : ℚ, c ≠ 0 →
      dual.divAssign ⟨a, b⟩ ⟨c, d⟩ = ⟨a / c, (b * c - a * d) / c ^ 2⟩ ∧
      (a ≠ 0 → dual.divAssign ⟨1, 0⟩ ⟨a, 1⟩ = ⟨1 / a, -(1 / a ^ 2)⟩) := by
  intro a b c d hc
  constructor
  · simp [dual.divAssign, dual.mk.injEq, sq]
  · intro ha
    simp only [dual.divAssign, dual.mk.injEq]
    refine ⟨trivial, ?_⟩
    field_simp
    ring

/-- Witness for `divAssign_quotient_rule` at `(a,b,c,d) = (2,0,2,1)`:
the spec's example `(1,0)/(2,1) = (0.5, -0.25)`. -/
theorem divAssign_quotient_rule_witness :
    dual.divAssign (⟨2, 0⟩ : dual ℚ) ⟨2, 1⟩ = ⟨2 / 2, (0 * 2 - 2 * 1) / 2 ^ 2⟩ ∧
    dual.divAssign (⟨1, 0⟩ : dual ℚ) ⟨2, 1⟩ = ⟨1 / 2, -(1 / 2 ^ 2)⟩ :=
  ⟨(divAssign_quotient_rule 2 0 2 1 (by norm_num)).1,
   (divAssign_quotient_rule 2 0 2 1 (by norm_num)).2 (by norm_num)⟩

/-- Claim C5, counterexample: dividing `(1,0)` by the zero-valued dual
`(0,0)` and inverting the zero-valued dual `(0,1)` do NOT signal any
`DomainError`: the code paths are unconditional and return `Except.ok`
of the unchecked arithmetic result. -/
theorem div_by_zero_not_signalled :
    divAssignE (⟨1, 0⟩ : dual ℚ) ⟨0, 0⟩ = Except.ok (dual.divAssign ⟨1, 0⟩ ⟨0, 0⟩) ∧
    (divAssignE (⟨1, 0⟩ : dual ℚ) ⟨0, 0⟩).isOk = true ∧
    invertedE (⟨0, 1⟩ : dual ℚ) = Except.ok (dual.inverted ⟨0, 1⟩) ∧
    (invertedE (⟨0, 1⟩ : dual ℚ)).isOk = true :=
  ⟨rfl, rfl, rfl, rfl⟩

/-- Claim C5, amended: division by a dual number with value component
exactly 0, and inversion of a dual number with value component exactly 0,
do not signal a DivideByZero/DomainError condition; the code performs the
component divisions unchecked and returns a dual number normally. -/
theorem div_by_zero_returns_normally :
    ∀ p q d : dual ℚ, q.a = 0 → d.a = 0 →
      (divAssignE p q).isOk = true ∧ (invertedE d).isOk = true :=
  fun _ _ _ _ _ => ⟨rfl, rfl⟩

/-- Witness for `div_by_zero_returns_normally` at `p = (1,0)`,
`q = (0,0)`, `d = (0,1)`. -/
theorem div_by_zero_returns_normally_witness :
    (⟨0, 0⟩ : dual ℚ).a = 0 ∧ (⟨0, 1⟩ : dual ℚ).a = 0 ∧
    ((divAssignE (⟨1, 0⟩ : dual ℚ) ⟨0, 0⟩).isOk = true ∧
     (invertedE (⟨0, 1⟩ : dual ℚ)).isOk = true) :=
  ⟨rfl, rfl, div_by_zero_returns_normally ⟨1, 0⟩ ⟨0, 0⟩ ⟨0, 1⟩ rfl rfl⟩

/-- Claim C8: prefix and postfix increment/decrement change only the
value component, producing `(a+1, b)` and `(a-1, b)`; the postfix forms
return the untouched copy while leaving the argument at the incremented
(resp. decremented) state. -/
theorem inc_dec_value_only :
    ∀ a b : ℚ, dual.incPre ⟨a, b⟩ = ⟨a + 1, b⟩ ∧ dual.decPre ⟨a, b⟩ = ⟨a - 1, b⟩ ∧
      incPost (⟨a, b⟩ : dual ℚ) = (⟨a, b⟩, ⟨a + 1, b⟩) ∧
      decPost (⟨a, b⟩ : dual ℚ) = (⟨a, b⟩, ⟨a - 1, b⟩) :=
  fun _ _ => ⟨rfl, rfl, rfl, rfl⟩

/-- Claim C9: `ID_Mul()` returns the pair `(0, 0)` — the same value as
`Zero()` and `ID_Add()` — and that value is not a multiplicative
identity: `(1,0) · ID_Mul() = (0,0) ≠ (1,0)`. -/
theorem ID_Mul_is_zero_not_identity :
    (dual.ID_Mul : dual ℚ) = ⟨0, 0⟩ ∧
    (dual.ID_Mul : dual ℚ) = dual.Zero ∧
    (dual.ID_Mul : dual ℚ) = dual.ID_Add ∧
    ∃ p : dual ℚ, dual.mulAssign p dual.ID_Mul ≠ p :=
  ⟨rfl, rfl, rfl,
   ⟨⟨1, 0⟩, by norm_num [dual.mulAssign, dual.ID_Mul, dual.mk.injEq]⟩⟩

/-- Claim C2 (code bug): `pow(dual, dual)` computes its value component
as `pow(f.a(), y.b())` — the exponent taken from the DERIVATIVE component
of `y` — instead of `pow(f.a(), y.a())`: at `f = (2, 0)`, `y = (3, 0)`
the value component is `2^0 = 1`, not the `2^3 = 8` that the chain-rule
specification (and the function's own derivative terms, which use
`pow(f.a(), y.a() - 1)`) requires. -/
theorem pow_dual_dual_at_two_cubed :
    (pow ⟨2, 0⟩ ⟨3, 0⟩).a = 1 ∧
    (2 : ℝ) ^ (3 : ℝ) = 8 ∧
    (pow ⟨2, 0⟩ ⟨3, 0⟩).a ≠ (2 : ℝ) ^ (3 : ℝ) := by
  have h1 : (pow ⟨2, 0⟩ ⟨3, 0⟩).a = 1 := by
    simp [DualNumbers.pow, Real.rpow_zero]
  have h2 : (2 : ℝ) ^ (3 : ℝ) = 8 := by
    rw [show (3 : ℝ) = ((3 : ℕ) : ℝ) by norm_num, Real.rpow_natCast]
    norm_num
  refine ⟨h1, h2, ?_⟩
  rw [h1, h2]
  norm_num

/-- Claim C3 (code bug): at order ν = 0 the derivative branch of
`calculateBesselFunctions` calls the wrapped provider at order 0,
computing `-x.b() * bessel(0, x.a())`, although the comment directly
above it (and the spec) state `Z0'(x) = -Z1(x)`: for any provider `J`
distinguishing orders 0 and 1 at the point 1, the derivative component of
`J0` at `x = (1, 1)` is `-J 0 1`, which differs from the specified
`-J 1 1`. -/
theorem bessel_order_zero_derivative (J : ℚ → ℚ → ℚ) (h : J 0 1 ≠ J 1 1) :
    (cyl_bessel_j J 0 ⟨1, 1⟩).b = -J 0 1 ∧
    (cyl_bessel_j J 0 ⟨1, 1⟩).b ≠ -J 1 1 := by
  have hb : (cyl_bessel_j J 0 ⟨1, 1⟩).b = -J 0 1 := by
    simp [cyl_bessel_j, calculateBesselFunctions]
  exact ⟨hb, by rw [hb]; exact fun hc => h (neg_injective hc)⟩

/-- Witness for `bessel_order_zero_derivative` with the concrete provider
`fun nu _ => nu`, which separates orders 0 and 1. -/
theorem bessel_order_zero_derivative_witness :
    ((fun (nu : ℚ) (_ : ℚ) => nu) 0 1 ≠ (fun (nu : ℚ) (_ : ℚ) => nu) 1 1) ∧
    ((cyl_bessel_j (fun (nu : ℚ) (_ : ℚ) => nu) 0 ⟨1, 1⟩).b =
       -(fun (nu : ℚ) (_ : ℚ) => nu) 0 1 ∧
     (cyl_bessel_j (fun (nu : ℚ) (_ : ℚ) => nu) 0 ⟨1, 1⟩).b ≠
       -(fun (nu : ℚ) (_ : ℚ) => nu) 1 1) :=
  ⟨by norm_num, bessel_order_zero_derivative (fun nu _ => nu) (by norm_num)⟩

/-- Claim C6: inversion (for nonzero value component) and conjugation are
involutions of the embedded code: applying `inverted()` twice, or
`conjugated()` twice, returns the original dual number. -/
theorem inversion_conjugation_involutive :
    ∀ p : dual ℚ,
      (p.a ≠ 0 → dual.inverted (dual.inverted p) = p) ∧
      dual.conjugated (dual.conjugated p) = p := by
  intro p
  obtain ⟨a, b⟩ := p
  constructor
  · intro h
    simp only [dual.inverted, dual.mk.injEq]
    rw [one_div_one_div]
    refine ⟨rfl, ?_⟩
    field_simp
  · simp [dual.conjugated]

/-- Witness for `inversion_conjugation_involutive` at `p = (2, 3)`. -/
theorem inversion_conjugation_involutive_witness :
    (⟨2, 3⟩ : dual ℚ).a ≠ 0 ∧
    dual.inverted (dual.inverted (⟨2, 3⟩ : dual ℚ)) = ⟨2, 3⟩ ∧
    dual.conjugated (dual.conjugated (⟨2, 3⟩ : dual ℚ)) = ⟨2, 3⟩ :=
  ⟨show (2 : ℚ) ≠ 0 by norm_num,
   (inversion_conjugation_involutive ⟨2, 3⟩).1 (show (2 : ℚ) ≠ 0 by norm_num),
   (inversion_conjugation_involutive ⟨2, 3⟩).2⟩

/-- Claim C7: `operator==` decides componentwise equality, `operator<`
decides the strict lexicographic order (value component first, derivative
component on ties), and the derived `!=`, `<=`, `>`, `>=` agree with the
corresponding lexicographic relations over the totally ordered component
type. -/
theorem comparison_lexicographic :
    ∀ p q : dual ℚ,
      (p.beq q = true ↔ p.a = q.a ∧ p.b = q.b) ∧
      (p.blt q = true ↔ p.a < q.a ∨ (p.a = q.a ∧ p.b < q.b)) ∧
      (bneD p q = true ↔ ¬(p.a = q.a ∧ p.b = q.b)) ∧
      (bleD p q = true ↔ p.a < q.a ∨ (p.a = q.a ∧ p.b ≤ q.b)) ∧
      (bgtD p q = true ↔ q.a < p.a ∨ (q.a = p.a ∧ q.b < p.b)) ∧
      (bgeD p q = true ↔ q.a < p.a ∨ (q.a = p.a ∧ q.b ≤ p.b)) := by
  intro p q
  refine ⟨beq_iff p q, blt_iff p q, ?_, ?_, ?_, ?_⟩
  · have hne : bneD p q = true ↔ ¬(p.beq q = true) := by
      simp [bneD]
    rw [hne, beq_iff]
  · simp only [bleD, Bool.or_eq_true, beq_iff, blt_iff]
    constructor
    · rintro (⟨h1, h2⟩ | h | ⟨h1, h2⟩)
      · exact Or.inr ⟨h1, le_of_eq h2⟩
      · exact Or.inl h
      · exact Or.inr ⟨h1, le_of_lt h2⟩
    · rintro (h | ⟨h1, h2⟩)
      · exact Or.inr (Or.inl h)
      · rcases eq_or_lt_of_le h2 with he | hl
        · exact Or.inl ⟨h1, he⟩
        · exact Or.inr (Or.inr ⟨h1, hl⟩)
  · simp only [bgtD, blt_iff]
  · simp only [bgeD, Bool.or_eq_true, beq_iff, bgtD, blt_iff]
    constructor
    · rintro (⟨h1, h2⟩ | h | ⟨h1, h2⟩)
      · exact Or.inr ⟨h1.symm, le_of_eq h2.symm⟩
      · exact Or.inl h
      · exact Or.inr ⟨h1, le_of_lt h2⟩
    · rintro (h | ⟨h1, h2⟩)
      · exact Or.inr (Or.inl h)
      · rcases eq_or_lt_of_le h2 with he | hl
        · exact Or.inl ⟨h1.symm, he.symm⟩
        · exact Or.inr (Or.inr ⟨h1, hl⟩)

/-- Claim C10: the free functions `inverted(dual<T>&)` and
`conjugated(dual<T>&)` mutate their by-reference argument in place.  For
every dual number the conjugation call leaves the argument holding the
conjugated value, equal to the returned value, and whenever that new
state differs from the original the caller's original value is gone; the
same holds for the inversion call, with the nonzero-value condition
applying only to that case. -/
theorem free_inverted_conjugated_mutate :
    ∀ d : dual ℚ,
      conjugated d = (d.conjugate, d.conjugate) ∧
      (conjugated d).2 = (conjugated d).1 ∧
      (d.conjugate ≠ d → (conjugated d).1 ≠ d) ∧
      (d.a ≠ 0 →
        inverted d = (d.inverse, d.inverse) ∧
        (inverted d).2 = (inverted d).1 ∧
        (d.inverse ≠ d → (inverted d).1 ≠ d)) :=
  fun _ => ⟨rfl, rfl, fun h => h, fun _ => ⟨rfl, rfl, fun h => h⟩⟩

/-- Witness for `free_inverted_conjugated_mutate`: conjugation exercised
at the zero-valued dual `(0, 5)` (where it genuinely destroys the
original) and inversion at `(2, 1)`. -/
theorem free_inverted_conjugated_mutate_witness :
    conjugated (⟨0, 5⟩ : dual ℚ) = (dual.conjugate ⟨0, 5⟩, dual.conjugate ⟨0, 5⟩) ∧
    (conjugated (⟨0, 5⟩ : dual ℚ)).1 ≠ ⟨0, 5⟩ ∧
    (⟨2, 1⟩ : dual ℚ).a ≠ 0 ∧
    (inverted (⟨2, 1⟩ : dual ℚ) = (dual.inverse ⟨2, 1⟩, dual.inverse ⟨2, 1⟩) ∧
     (inverted (⟨2, 1⟩ : dual ℚ)).2 = (inverted (⟨2, 1⟩ : dual ℚ)).1 ∧
     (dual.inverse (⟨2, 1⟩ : dual ℚ) ≠ ⟨2, 1⟩ → (inverted (⟨2, 1⟩ : dual ℚ)).1 ≠ ⟨2, 1⟩)) :=
  ⟨(free_inverted_conjugated_mutate ⟨0, 5⟩).1,
   (free_inverted_conjugated_mutate ⟨0, 5⟩).2.2.1
     (by norm_num [dual.conjugate, dual.conjugated, dual.mk.injEq]),
   show (2 : ℚ) ≠ 0 by norm_num,
   (free_inverted_conjugated_mutate ⟨2, 1⟩).2.2.2 (show (2 : ℚ) ≠ 0 by norm_num)⟩

end DualNumbers
